import Mathlib

/-!
Verification development for the phantom/raster utility module
`notebooks/PET_sensitivity/odl_funcs/misc.py`.

The module is shallowly embedded here:
* floating-point numbers are modelled as real numbers (`ℝ`) for the
  ellipse-phantom pipeline (which uses `cos`, `sin`, `sqrt`), and as
  rationals (`ℚ`) for the integer raster canvases, where every
  operation is exact;
* numpy arrays are modelled either as functions (`ℕ → ℕ → ℝ`, for the
  phantom canvas) or as lists of lists (`List (List ℚ)`, for the raster
  canvases, where the claims talk about array shape);
* Python code that can raise (`assert`, division by zero, scalar
  indexing out of range, `np.random.randint` with an empty range, and
  the unresolved name `random`) is embedded with `Except`.
-/

namespace Misc

/-! ## Python slice / indexing semantics (shared helpers)

`sliceStop` is the effective stop of a basic numpy/Python slice
`a[start:stop]` on an axis of length `S`: a negative `stop` counts from
the end, and the result is clamped into `[0, S]`.  Slicing never raises.
-/

def sliceStop (stop : ℤ) (S : ℕ) : ℤ :=
  if stop < 0 then max (stop + (S : ℤ)) 0 else min stop (S : ℤ)

/-- Membership of pixel index `i` in the slice `lo : hi` on an axis of
length `S` (with `lo ≥ 0`, as produced by `_getshapes_2d`). -/
def inSlice (S : ℕ) (lo hi : ℤ) (i : ℕ) : Prop :=
  lo ≤ (i : ℤ) ∧ (i : ℤ) < sliceStop hi S

instance (S : ℕ) (lo hi : ℤ) (i : ℕ) : Decidable (inSlice S lo hi i) := by
  unfold inSlice; infer_instance

/-! ## `_getshapes_2d` (misc.py lines 19-30)

```
index_mean = shape * center
index_radius = max_radius / 2.0 * np.array(shape)
min_idx = np.maximum(np.floor(index_mean - index_radius), 0).astype(int)
max_idx = np.ceil(index_mean + index_radius).astype(int)
```
One axis at a time: `S` is the axis length, `c` the normalised center
fraction on that axis, `r` the `max_radius` entry for that axis. -/

noncomputable def getshapes_2d_min (S : ℕ) (c r : ℝ) : ℤ :=
  max ⌊(S : ℝ) * c - r / 2 * (S : ℝ)⌋ 0

noncomputable def getshapes_2d_max (S : ℕ) (c r : ℝ) : ℤ :=
  ⌈(S : ℝ) * c + r / 2 * (S : ℝ)⌉

/-! ## The normalised coordinate grid (misc.py lines 63-75)

```
grid_in = (np.expand_dims(np.linspace(0, 1, shape[0]),1),
           np.expand_dims(np.linspace(0, 1, shape[1]),0))
grid.append((grid_in[i] - 0.5) / 0.5)
```
`np.linspace 0 1 S` has value `i / (S - 1)` at index `i`, and value `0`
when `S = 1`. -/

noncomputable def linspace01 (S i : ℕ) : ℝ :=
  if S = 1 then 0 else (i : ℝ) / ((S : ℝ) - 1)

noncomputable def grid (S i : ℕ) : ℝ :=
  (linspace01 S i - 0.5) / 0.5

/-! ## Per-ellipse rasterization (misc.py lines 77-133)

An ellipse spec is a list `[value, axis_1, axis_2, center_x, center_y,
rotation]`.  Axis 0 of the canvas pairs with `axis_1`/`center_x`, axis 1
with `axis_2`/`center_y`.  The code takes the rotated path when
`theta != 0` and the cheaper axis-aligned path otherwise; each path
computes a bounding box via `_getshapes_2d`, evaluates the quadratic
form on the sub-grid, and adds `intensity` on `radius <= 1`
(`p[idx][inside] += intensity`, which accumulates into `p`). -/

/-- The canvas of `ellipse_phantom`: a function from (row, column)
pixel indices to intensities; pixels outside the requested shape are
never written and stay `0`. -/
def Canvas : Type := ℕ → ℕ → ℝ

def zerosCanvas : Canvas := fun _ _ => 0

/-- Membership condition of pixel `(i, j)` for the axis-aligned path
(`theta == 0` branch): inside both bounding-box slices, and
`scales[0]*(x-x0)^2 + scales[1]*(y-y0)^2 <= 1` with
`scales = [1/a^2, 1/b^2]` and `max_radius = np.sqrt([a^2, b^2])`.
The drawing loop raises `ZeroDivisionError` at the `scales` division
for a zero semi-axis (see `specDivByZero`), so on program-reachable
paths `1 / a ^ 2` here never divides by zero. -/
noncomputable def insideAxis (shape : ℕ × ℕ) (a b x0 y0 : ℝ) (i j : ℕ) : Prop :=
  inSlice shape.1 (getshapes_2d_min shape.1 ((x0 + 1) / 2) (Real.sqrt (a ^ 2)))
                  (getshapes_2d_max shape.1 ((x0 + 1) / 2) (Real.sqrt (a ^ 2))) i ∧
  inSlice shape.2 (getshapes_2d_min shape.2 ((y0 + 1) / 2) (Real.sqrt (b ^ 2)))
                  (getshapes_2d_max shape.2 ((y0 + 1) / 2) (Real.sqrt (b ^ 2))) j ∧
  1 / a ^ 2 * (grid shape.1 i - x0) ^ 2 + 1 / b ^ 2 * (grid shape.2 j - y0) ^ 2 ≤ 1

/-- Membership condition of pixel `(i, j)` for the rotated path
(`theta != 0` branch): `max_radius = sqrt(|mat| . [a^2, b^2])` with
`mat = [[cos, sin], [-sin, cos]]`, the offsets are rotated through
`mat`, squared and contracted with `scales = [1/a^2, 1/b^2]`.
As with the axis path, the loop's `ZeroDivisionError` guard
(`specDivByZero`) fires before this branch for a zero semi-axis. -/
noncomputable def insideRot (shape : ℕ × ℕ) (a b x0 y0 th : ℝ) (i j : ℕ) : Prop :=
  inSlice shape.1
    (getshapes_2d_min shape.1 ((x0 + 1) / 2)
      (Real.sqrt (|Real.cos th| * a ^ 2 + |Real.sin th| * b ^ 2)))
    (getshapes_2d_max shape.1 ((x0 + 1) / 2)
      (Real.sqrt (|Real.cos th| * a ^ 2 + |Real.sin th| * b ^ 2))) i ∧
  inSlice shape.2
    (getshapes_2d_min shape.2 ((y0 + 1) / 2)
      (Real.sqrt (|Real.sin th| * a ^ 2 + |Real.cos th| * b ^ 2)))
    (getshapes_2d_max shape.2 ((y0 + 1) / 2)
      (Real.sqrt (|Real.sin th| * a ^ 2 + |Real.cos th| * b ^ 2))) j ∧
  (Real.cos th * (grid shape.1 i - x0) + Real.sin th * (grid shape.2 j - y0)) ^ 2
      * (1 / a ^ 2) +
    (-Real.sin th * (grid shape.1 i - x0) + Real.cos th * (grid shape.2 j - y0)) ^ 2
      * (1 / b ^ 2) ≤ 1

open Classical in
/-- The axis-aligned branch of the drawing loop. -/
noncomputable def drawEllipseAxis (shape : ℕ × ℕ) (v a b x0 y0 : ℝ) (p : Canvas) : Canvas :=
  fun i j => if insideAxis shape a b x0 y0 i j then p i j + v else p i j

open Classical in
/-- The rotated branch of the drawing loop. -/
noncomputable def drawEllipseRot (shape : ℕ × ℕ) (v a b x0 y0 th : ℝ) (p : Canvas) : Canvas :=
  fun i j => if insideRot shape a b x0 y0 th i j then p i j + v else p i j

open Classical in
/-- One iteration of the drawing loop: `if theta != 0` take the rotated
path, else the axis-aligned path. -/
noncomputable def drawEllipse (shape : ℕ × ℕ) (v a b x0 y0 th : ℝ) (p : Canvas) : Canvas :=
  if th = 0 then drawEllipseAxis shape v a b x0 y0 p
  else drawEllipseRot shape v a b x0 y0 th p

/-- The branch-aware membership condition of a pixel for one ellipse. -/
noncomputable def insideEllipse (shape : ℕ × ℕ) (a b x0 y0 th : ℝ) (i j : ℕ) : Prop :=
  if th = 0 then insideAxis shape a b x0 y0 i j else insideRot shape a b x0 y0 th i j

/-- Destructure a (length-6) ellipse spec and draw it; the fallback arm
is never reached because the loop asserts the arity first. -/
noncomputable def drawSpec (shape : ℕ × ℕ) (p : Canvas) (e : List ℝ) : Canvas :=
  match e with
  | [v, a, b, x0, y0, th] => drawEllipse shape v a b x0 y0 th p
  | _ => p

open Classical in
/-- The claimed contribution of one spec to one pixel: its intensity if
the pixel passes the branch-appropriate bounding-box and quadratic-form
test, else `0`. -/
noncomputable def specContrib (shape : ℕ × ℕ) (e : List ℝ) (i j : ℕ) : ℝ :=
  match e with
  | [_, a, b, x0, y0, th] =>
      if insideEllipse shape a b x0 y0 th i j then e.headD 0 else 0
  | _ => 0

/-- Errors the drawing loop of `ellipse_phantom` can raise: the arity
assertion `assert len(ellip) == 6` (the error value records the canvas
at the moment the assertion fires), and the `ZeroDivisionError` raised
by `scales = [1 / a_squared, 1 / b_squared]` (misc.py line 87) when a
spec has a zero semi-axis. -/
inductive EllipseErr where
  | assertionError (p : Canvas)
  | zeroDivisionError

/-- Guard for the `scales = [1 / a_squared, 1 / b_squared]` division
(misc.py line 87): Python raises `ZeroDivisionError` exactly when a
squared semi-axis is zero.  This happens after the arity assert and
before either drawing branch runs. -/
def specDivByZero (e : List ℝ) : Prop :=
  match e with
  | [_, a, b, _, _, _] => a ^ 2 = 0 ∨ b ^ 2 = 0
  | _ => False

/-- Whether an `ellipse_phantom` result is the arity `AssertionError`
(as opposed to success or `ZeroDivisionError`). -/
def isAssertionError : Except EllipseErr Canvas → Bool
  | .error (.assertionError _) => true
  | _ => false

open Classical in
/-- The drawing loop of `ellipse_phantom`: for each spec, first
`assert len(ellip) == 6`, then the `scales` division (which raises
`ZeroDivisionError` on a zero semi-axis, before either branch), then
the ellipse is drawn. -/
noncomputable def ellipse_phantom_loop (shape : ℕ × ℕ) :
    Canvas → List (List ℝ) → Except EllipseErr Canvas
  | p, [] => .ok p
  | p, e :: rest =>
      if e.length = 6 then
        if specDivByZero e then .error .zeroDivisionError
        else ellipse_phantom_loop shape (drawSpec shape p e) rest
      else .error (.assertionError p)

/-- Definition of `ellipse_phantom` (misc.py lines 32-133): a blank canvas, then the
drawing loop over the spec list. -/
noncomputable def ellipse_phantom (shape : ℕ × ℕ) (ellipses : List (List ℝ)) :
    Except EllipseErr Canvas :=
  ellipse_phantom_loop shape zerosCanvas ellipses

/-! ## `shepp_logan` (misc.py lines 186-201) -/

/-- Conversion `np.deg2rad`. -/
noncomputable def deg2rad (x : ℝ) : ℝ := x * (Real.pi / 180)

/-- Definition of `shepp_logan(space)`: rasterize the 10 literal ellipse specs on
`space[1:]` and wrap the result in a leading singleton axis
(`np.array([x])`). -/
noncomputable def shepp_logan (space : ℕ × ℕ × ℕ) : Except EllipseErr (List Canvas) :=
  (ellipse_phantom (space.2.1, space.2.2)
    [[0.55, 0.69, 0.92, 0.0, 0.0, 0],
     [0.60, 0.6624, 0.874, 0.0, -0.0184, 0],
     [0.50, 0.11, 0.31, 0.22, 0.0, -deg2rad 18.0],
     [0.51, 0.16, 0.41, -0.22, 0.0, deg2rad 18.0],
     [0.05, 0.21, 0.25, 0.0, 0.35, 0],
     [0.11, 0.046, 0.046, 0.0, 0.1, 0],
     [0.48, 0.046, 0.046, 0.0, -0.1, 0],
     [0.34, 0.046, 0.023, -0.08, -0.605, 0],
     [0.14, 0.023, 0.023, 0.0, -0.606, 0],
     [1.28, 0.023, 0.046, 0.06, -0.605, 0]]).map (fun x => [x])

/-! ## Raster canvases over `ℚ` (misc.py lines 203-324)

The random-canvas generators build a `np.zeros(shape)` array and stamp
primitives onto it.  These arrays are modelled as lists of rows so that
the array *shape* is observable.  Python-level failures (`assert`-free
here, but division by zero, scalar indexing out of range, empty
`randint` ranges, and the unresolved global name `random`) are modelled
with `Except PyErr`. -/

inductive PyErr where
  | zeroDivisionError
  | indexError
  | valueError
  | nameError
deriving DecidableEq, Repr

def pyCanvas : Type := List (List ℚ)

instance : DecidableEq pyCanvas := by unfold pyCanvas; infer_instance

/-- Blank canvas `np.zeros((m, n))`. -/
def zeros (m n : ℕ) : pyCanvas := List.replicate m (List.replicate n 0)

/-- Read a pixel (row `i`, column `j`); out-of-range reads give `0`
(used only in statements, never to model an in-bounds numpy read). -/
def getPix (c : pyCanvas) (i j : ℕ) : ℚ := (c.getD i []).getD j 0

/-- The row lengths of a canvas; all stamping operations preserve it. -/
def shapeList (c : pyCanvas) : List ℕ := c.map List.length

/-- Whether `c` has exactly `m` rows of `n` columns each. -/
def hasShape (c : pyCanvas) (m n : ℕ) : Bool :=
  c.length == m && c.all (fun row => row.length == n)

/-- Map a function over one row, tracking the column index. -/
def mapRow (g : ℕ → ℚ → ℚ) : ℕ → List ℚ → List ℚ
  | _, [] => []
  | j, v :: vs => g j v :: mapRow g (j + 1) vs

def mapCellsAux (f : ℕ → ℕ → ℚ → ℚ) : ℕ → pyCanvas → pyCanvas
  | _, [] => []
  | i, row :: rest => mapRow (f i) 0 row :: mapCellsAux f (i + 1) rest

/-- Pointwise update of every cell, with access to its (row, column)
index: the shallow embedding of a vectorized numpy assignment. -/
def mapCells (f : ℕ → ℕ → ℚ → ℚ) (c : pyCanvas) : pyCanvas := mapCellsAux f 0 c

/-- Slice assignment `canvas[r1:r2, c1:c2] = v` for non-negative bounds (every caller in
misc.py clamps the bounds to `≥ 0` first); numpy clips the stops at the
axis lengths, which the pointwise guard `i < r2` does automatically. -/
def sliceAssign (c : pyCanvas) (r1 r2 c1 c2 : ℤ) (v : ℚ) : pyCanvas :=
  mapCells (fun i j old =>
    if r1 ≤ (i : ℤ) ∧ (i : ℤ) < r2 ∧ c1 ≤ (j : ℤ) ∧ (j : ℤ) < c2 then v else old) c

/-- Python scalar index resolution on an axis of length `len`: negative
indices count from the end; anything else raises `IndexError`. -/
def pyIdx (k : ℤ) (len : ℕ) : Option ℕ :=
  if 0 ≤ k ∧ k < (len : ℤ) then some k.toNat
  else if -(len : ℤ) ≤ k ∧ k < 0 then some (k + len).toNat
  else none

/-- Scalar assignment `canvas[row, col] = v` with Python scalar-index semantics. -/
def setPix (c : pyCanvas) (row col : ℤ) (v : ℚ) : Except PyErr pyCanvas :=
  match pyIdx row c.length with
  | none => .error .indexError
  | some r =>
      match pyIdx col (c.getD r []).length with
      | none => .error .indexError
      | some cc => .ok (c.set r ((c.getD r []).set cc v))

/-- Python `int(q)`: truncation toward zero (ceiling for negative
values, floor for non-negative ones). -/
def pyInt (q : ℚ) : ℤ := if q < 0 then ⌈q⌉ else ⌊q⌋

/-- Clamping `np.clip(v, lo, hi) = min(max(v, lo), hi)`. -/
def pyClip (v lo hi : ℤ) : ℤ := min (max v lo) hi

/-! ## `fill_line` (misc.py lines 264-280)

```
dx = x2 - x1 ; dy = y2 - y1 ; d = max(abs(dx), abs(dy))
sx = dx / d ; sy = dy / d
x = x1 ; y = y1
for i in range(d+1):
    canvas[int(y), int(x)] = color
    x += sx ; y += sy
```
With integer endpoints and `d = 0` the division `dx / d` raises
`ZeroDivisionError`. -/

def fillLineLoop (col : ℚ) (sx sy : ℚ) : pyCanvas → ℚ → ℚ → ℕ → Except PyErr pyCanvas
  | c, _, _, 0 => .ok c
  | c, x, y, n + 1 =>
      match setPix c (pyInt y) (pyInt x) col with
      | .error e => .error e
      | .ok c' => fillLineLoop col sx sy c' (x + sx) (y + sy) n

def fill_line (canvas : pyCanvas) (x1 y1 x2 y2 : ℤ) (color : ℚ) :
    Except PyErr pyCanvas :=
  let dx := x2 - x1
  let dy := y2 - y1
  let d : ℕ := max dx.natAbs dy.natAbs
  if d = 0 then .error .zeroDivisionError
  else fillLineLoop color ((dx : ℚ) / (d : ℚ)) ((dy : ℚ) / (d : ℚ)) canvas (x1 : ℚ) (y1 : ℚ) (d + 1)

/-- The (row, column) pixel coordinates that the DDA loop writes: the
`i`-th visited point is `(x + i*sx, y + i*sy)`, truncated toward zero
by `int()`. -/
def lineWrites (x y sx sy : ℚ) (n : ℕ) : List (ℤ × ℤ) :=
  (List.range n).map fun (i : ℕ) => (pyInt (y + (i : ℚ) * sy), pyInt (x + (i : ℚ) * sx))

/-- Write `col` at each listed (row, column) position in order. -/
def writePixels (c : pyCanvas) (ps : List (ℤ × ℤ)) (col : ℚ) : Except PyErr pyCanvas :=
  ps.foldlM (fun cc rc => setPix cc rc.1 rc.2 col) c

/-! ## Random draws

The generators draw from numpy's global random stream.  Each draw is
modelled by an explicit per-iteration tuple of raw naturals, reduced
into the right range the way `np.random.randint(low, high)` constrains
its result: a value in `[low, high)`, raising `ValueError` when the
range is empty. -/

def pyRandint (low high : ℤ) (r : ℕ) : Except PyErr ℤ :=
  if low < high then .ok (low + (r : ℤ) % (high - low)) else .error .valueError

/-- The call `random.choice(colors)` in `random_camouflage_array`
(misc.py line 210): the module `random` is never imported — the
imports of misc.py (lines 15-16) are only `numpy` and
`scipy.ndimage.affine_transform` — so evaluating the name `random`
raises `NameError` before any element is chosen. -/
def randomDotChoice (_colors : List ℚ) (_r : ℕ) : Except PyErr ℚ :=
  .error .nameError

/-- The draw `np.random.choice(['rectangle', 'circle'])`, reduced to which of the
two kinds was drawn. -/
def npChoiceIsRect (r : ℕ) : Bool := r % 2 == 0

/-! ## `random_camouflage_array` (misc.py lines 203-229) -/

def camoStep (shape : ℕ × ℕ) (minSize maxSize : ℤ) (colors : List ℚ)
    (c : pyCanvas) (r : ℕ × ℕ × ℕ × ℕ) : Except PyErr pyCanvas := do
  let cx ← pyRandint 0 (shape.2 : ℤ) r.1
  let cy ← pyRandint 0 (shape.1 : ℤ) r.2.1
  let size ← pyRandint minSize maxSize r.2.2.1
  let color ← randomDotChoice colors r.2.2.2
  let x1 := pyClip (cx - size.fdiv 2) 0 ((shape.2 : ℤ) - 1)
  let y1 := pyClip (cy - size.fdiv 2) 0 ((shape.1 : ℤ) - 1)
  let x2 := pyClip (cx + size.fdiv 2) 0 ((shape.2 : ℤ) - 1)
  let y2 := pyClip (cy + size.fdiv 2) 0 ((shape.1 : ℤ) - 1)
  pure (sliceAssign c y1 y2 x1 x2 color)

def random_camouflage_array (shape : ℕ × ℕ) (num_patches : ℕ)
    (minSize maxSize : ℤ) (colors : List ℚ) (draws : ℕ → ℕ × ℕ × ℕ × ℕ) :
    Except PyErr pyCanvas :=
  (List.range num_patches).foldlM
    (fun c i => camoStep shape minSize maxSize colors c (draws i))
    (zeros shape.1 shape.2)

/-! ## `random_shapes_array` (misc.py lines 282-324) -/

/-- The rectangle branch: clamp the bounding box (`max(0, ·)` below,
`min(shape, ·)` above) and solid-fill it. -/
def drawRect (shape : ℕ × ℕ) (cx cy size : ℤ) (color : ℚ) (c : pyCanvas) : pyCanvas :=
  sliceAssign c (max 0 (cy - size.fdiv 2)) (min (shape.1 : ℤ) (cy + size.fdiv 2))
    (max 0 (cx - size.fdiv 2)) (min (shape.2 : ℤ) (cx + size.fdiv 2)) color

open Classical in
/-- The circle branch: over the full coordinate mesh, paint every pixel
whose Euclidean distance from the center is `<= size // 2` (note the
floor division in `distances <= size//2`). -/
noncomputable def drawCircle (cx cy size : ℤ) (color : ℚ) (c : pyCanvas) : pyCanvas :=
  mapCells (fun i j old =>
    if Real.sqrt (((j : ℝ) - (cx : ℝ)) ^ 2 + ((i : ℝ) - (cy : ℝ)) ^ 2)
        ≤ ((size.fdiv 2 : ℤ) : ℝ) then color else old) c

noncomputable def shapesStep (shape : ℕ × ℕ) (minSize maxSize : ℤ)
    (c : pyCanvas) (r : ℕ × ℕ × ℕ × ℕ × ℕ) : Except PyErr pyCanvas := do
  let cx ← pyRandint 0 (shape.2 : ℤ) r.1
  let cy ← pyRandint 0 (shape.1 : ℤ) r.2.1
  let size ← pyRandint minSize maxSize r.2.2.1
  let color ← pyRandint 1 255 r.2.2.2.1
  if npChoiceIsRect r.2.2.2.2 then pure (drawRect shape cx cy size (color : ℚ) c)
  else pure (drawCircle cx cy size (color : ℚ) c)

noncomputable def random_shapes_array (shape : ℕ × ℕ) (num_shapes : ℕ)
    (minSize maxSize : ℤ) (draws : ℕ → ℕ × ℕ × ℕ × ℕ × ℕ) : Except PyErr pyCanvas :=
  (List.range num_shapes).foldlM (fun c i => shapesStep shape minSize maxSize c (draws i))
    (zeros shape.1 shape.2)

/-! ## `random_polygons_array` (misc.py lines 231-262) -/

open Classical in
/-- Rounding `np.round`: round half to even (banker's rounding), as numpy does.
Away from exact halves it agrees with rounding to nearest. -/
noncomputable def roundHalfEven (x : ℝ) : ℤ :=
  if Int.fract x = 1 / 2 then (if Even ⌊x⌋ then ⌊x⌋ else ⌊x⌋ + 1) else round x

noncomputable def polyStep (shape : ℕ × ℕ) (minN maxN minSize maxSize : ℤ)
    (c : pyCanvas) (r : ℕ × ℕ × ℕ × ℕ × ℕ) : Except PyErr pyCanvas := do
  let cx ← pyRandint 0 (shape.2 : ℤ) r.1
  let cy ← pyRandint 0 (shape.1 : ℤ) r.2.1
  let size ← pyRandint minSize maxSize r.2.2.1
  let n ← pyRandint minN maxN r.2.2.2.1
  let color ← pyRandint 1 255 r.2.2.2.2
  if n < 0 then .error .valueError  -- np.linspace with a negative count raises
  else
    let nn := n.toNat
    let xs := fun (k : ℕ) =>
      pyClip (roundHalfEven ((cx : ℝ) + (size : ℝ) * Real.cos (2 * Real.pi * (k : ℝ) / (nn : ℝ))))
        0 ((shape.2 : ℤ) - 1)
    let ys := fun (k : ℕ) =>
      pyClip (roundHalfEven ((cy : ℝ) + (size : ℝ) * Real.sin (2 * Real.pi * (k : ℝ) / (nn : ℝ))))
        0 ((shape.1 : ℤ) - 1)
    (List.range nn).foldlM
      (fun cc j => fill_line cc (xs j) (ys j) (xs ((j + 1) % nn)) (ys ((j + 1) % nn)) (color : ℚ))
      c

noncomputable def random_polygons_array (shape : ℕ × ℕ) (num_polygons : ℕ)
    (minN maxN minSize maxSize : ℤ) (draws : ℕ → ℕ × ℕ × ℕ × ℕ × ℕ) :
    Except PyErr pyCanvas :=
  (List.range num_polygons).foldlM
    (fun c i => polyStep shape minN maxN minSize maxSize c (draws i))
    (zeros shape.1 shape.2)

/-! ## Helper lemmas about the ellipse pipeline -/

lemma drawEllipse_pixel (shape : ℕ × ℕ) (v a b x0 y0 th : ℝ) (p : Canvas) (i j : ℕ) :
    drawEllipse shape v a b x0 y0 th p i j
      = p i j + specContrib shape [v, a, b, x0, y0, th] i j := by
  unfold drawEllipse specContrib insideEllipse
  by_cases h : th = 0
  · by_cases h2 : insideAxis shape a b x0 y0 i j <;>
      simp [h, h2, drawEllipseAxis]
  · by_cases h2 : insideRot shape a b x0 y0 th i j <;>
      simp [h, h2, drawEllipseRot]

lemma length_eq_six (e : List ℝ) (h : e.length = 6) :
    ∃ v a b x0 y0 th, e = [v, a, b, x0, y0, th] := by
  rcases e with _ | ⟨v, _ | ⟨a, _ | ⟨b, _ | ⟨x0, _ | ⟨y0, _ | ⟨th, _ | ⟨w, rest⟩⟩⟩⟩⟩⟩⟩ <;>
    simp_all

lemma ellipse_phantom_loop_ok (shape : ℕ × ℕ) :
    ∀ (specs : List (List ℝ)) (p : Canvas), (∀ e ∈ specs, e.length = 6) →
      (∀ e ∈ specs, ¬ specDivByZero e) →
      ellipse_phantom_loop shape p specs
        = .ok (fun i j => p i j + (specs.map (fun e => specContrib shape e i j)).sum) := by
  intro specs
  induction specs with
  | nil => intro p _ _; simp [ellipse_phantom_loop]
  | cons e rest ih =>
      intro p h hz
      have he : e.length = 6 := h e (by simp)
      rw [ellipse_phantom_loop, if_pos he, if_neg (hz e (by simp)),
        ih _ (fun e' he' => h e' (by simp [he'])) (fun e' he' => hz e' (by simp [he']))]
      obtain ⟨v, a, b, x0, y0, th, rfl⟩ := length_eq_six e he
      congr 1
      funext i j
      simp only [drawSpec, drawEllipse_pixel, List.map_cons, List.sum_cons]
      ring

lemma ellipse_phantom_loop_prefix (shape : ℕ × ℕ) :
    ∀ (pre : List (List ℝ)) (p : Canvas) (bad : List ℝ) (rest : List (List ℝ)),
      (∀ e ∈ pre, e.length = 6) → (∀ e ∈ pre, ¬ specDivByZero e) → bad.length ≠ 6 →
      ellipse_phantom_loop shape p (pre ++ bad :: rest)
        = .error (.assertionError (pre.foldl (drawSpec shape) p)) := by
  intro pre
  induction pre with
  | nil => intro p bad rest _ _ hb; simp [ellipse_phantom_loop, hb]
  | cons e es ih =>
      intro p bad rest h hz hb
      have he : e.length = 6 := h e (by simp)
      rw [List.cons_append, ellipse_phantom_loop, if_pos he, if_neg (hz e (by simp)),
        ih _ _ _ (fun e' he' => h e' (by simp [he']))
          (fun e' he' => hz e' (by simp [he'])) hb, List.foldl_cons]

lemma ellipse_phantom_loop_no_assert (shape : ℕ × ℕ) :
    ∀ (specs : List (List ℝ)) (p : Canvas), (∀ e ∈ specs, e.length = 6) →
      isAssertionError (ellipse_phantom_loop shape p specs) = false := by
  intro specs
  induction specs with
  | nil => intro p _; rfl
  | cons e rest ih =>
      intro p h
      rw [ellipse_phantom_loop, if_pos (h e (by simp))]
      by_cases hz : specDivByZero e
      · rw [if_pos hz]; rfl
      · rw [if_neg hz]
        exact ih _ (fun e' he' => h e' (by simp [he']))

/-! ## Claims about the ellipse pipeline -/

/-- Claim C1, counterexample.  The claim says each pixel accumulates
the intensities of exactly the ellipses whose quadratic form there is
`<= 1`.  On a 1x1 canvas the single pixel sits at grid coordinate
`(-1, -1)`; the spec `[1, 1, 2, -2, -1, 0]` contains that point (its
quadratic form there is exactly `1`), yet the bounding box computed by
`_getshapes_2d` is the empty slice `0:0` on axis 0, so `ellipse_phantom`
leaves the pixel at `0` instead of the claimed `1`. -/
theorem ellipse_phantom_misses_inside_boundary_pixel :
    (Misc.ellipse_phantom (1, 1) [[1, 1, 2, -2, -1, 0]]).toOption.map (fun P => P 0 0)
        = some 0
    ∧ Misc.grid 1 0 = -1
    ∧ 1 / (1 : ℝ) ^ 2 * (Misc.grid 1 0 - (-2)) ^ 2
        + 1 / (2 : ℝ) ^ 2 * (Misc.grid 1 0 - (-1)) ^ 2 ≤ 1 := by
  have hg : Misc.grid 1 0 = -1 := by
    unfold Misc.grid Misc.linspace01; norm_num
  refine ⟨?_, hg, ?_⟩
  · have hmax : getshapes_2d_max 1 (((-2 : ℝ) + 1) / 2) (Real.sqrt ((1 : ℝ) ^ 2)) = 0 := by
      unfold getshapes_2d_max
      rw [(by norm_num : ((1 : ℝ) ^ 2) = 1), Real.sqrt_one]
      rw [(by push_cast; ring :
            ((1 : ℕ) : ℝ) * (((-2 : ℝ) + 1) / 2) + 1 / 2 * ((1 : ℕ) : ℝ) = 0),
        Int.ceil_zero]
    have hns : ¬ insideAxis (1 : ℕ × ℕ) 1 2 (-2) (-1) 0 0 := by
      intro h
      have h12 : (0 : ℤ) < sliceStop
          (getshapes_2d_max 1 (((-2 : ℝ) + 1) / 2) (Real.sqrt ((1 : ℝ) ^ 2))) 1 := h.1.2
      rw [hmax] at h12
      unfold sliceStop at h12
      norm_num at h12
    have hnz : ¬ specDivByZero [(1 : ℝ), 1, 2, -2, -1, 0] := by
      norm_num [specDivByZero]
    simp [Misc.ellipse_phantom, Misc.ellipse_phantom_loop, drawSpec, drawEllipse,
      drawEllipseAxis, hns, hnz, zerosCanvas, Except.toOption]
  · rw [hg]; norm_num

/-- Claim C1, amended: for every spec list of 6-entry specs whose
semi-axes are nonzero (so that `scales = [1/a^2, 1/b^2]` does not raise
`ZeroDivisionError`), each pixel of the canvas returned by
`ellipse_phantom` equals the sum of `specContrib` over the spec list,
i.e. the sum of the intensities of exactly those ellipses whose
quadratic form at the pixel is `<= 1` *and* whose computed bounding-box
slices contain the pixel (`insideEllipse`); without the bounding-box
condition the statement is false (see the counterexample), and without
the nonzero-semi-axes condition the program raises instead of
returning. -/
theorem ellipse_phantom_pixel_sum_within_bbox (shape : ℕ × ℕ) (specs : List (List ℝ))
    (h : ∀ e ∈ specs, e.length = 6) (hz : ∀ e ∈ specs, ¬ specDivByZero e) :
    Misc.ellipse_phantom shape specs
      = .ok (fun i j => (specs.map (fun e => specContrib shape e i j)).sum) := by
  unfold Misc.ellipse_phantom
  rw [ellipse_phantom_loop_ok shape specs zerosCanvas h hz]
  congr 1
  funext i j
  simp [zerosCanvas]

/-- Claim C1, witness: the amended theorem applied to a concrete shape
and spec list. -/
theorem ellipse_phantom_pixel_sum_within_bbox_inst :
    (∀ e ∈ [[(2 : ℝ), 1, 1, 0, 0, 0]], e.length = 6)
    ∧ (∀ e ∈ [[(2 : ℝ), 1, 1, 0, 0, 0]], ¬ specDivByZero e)
    ∧ Misc.ellipse_phantom (1, 1) [[(2 : ℝ), 1, 1, 0, 0, 0]]
        = .ok (fun i j =>
            (([[(2 : ℝ), 1, 1, 0, 0, 0]]).map
              (fun e => specContrib (1, 1) e i j)).sum) :=
  ⟨by intro e he; simp at he; simp [he],
   by intro e he; simp at he; subst he; norm_num [specDivByZero],
   ellipse_phantom_pixel_sum_within_bbox (1, 1) [[(2 : ℝ), 1, 1, 0, 0, 0]]
     (by intro e he; simp at he; simp [he])
     (by intro e he; simp at he; subst he; norm_num [specDivByZero])⟩

/-- Claim C2: `shepp_logan` is exactly the `ellipse_phantom`
rasterization of the 10 literal ellipse specs of the source table on
`space[1:]`, wrapped in a leading singleton axis, and (being a pure
function of `space`) it is deterministic. -/
theorem shepp_logan_literal_table (space : ℕ × ℕ × ℕ) :
    Misc.shepp_logan space
      = (Misc.ellipse_phantom (space.2.1, space.2.2)
          [[0.55, 0.69, 0.92, 0.0, 0.0, 0],
           [0.60, 0.6624, 0.874, 0.0, -0.0184, 0],
           [0.50, 0.11, 0.31, 0.22, 0.0, -deg2rad 18.0],
           [0.51, 0.16, 0.41, -0.22, 0.0, deg2rad 18.0],
           [0.05, 0.21, 0.25, 0.0, 0.35, 0],
           [0.11, 0.046, 0.046, 0.0, 0.1, 0],
           [0.48, 0.046, 0.046, 0.0, -0.1, 0],
           [0.34, 0.046, 0.023, -0.08, -0.605, 0],
           [0.14, 0.023, 0.023, 0.0, -0.606, 0],
           [1.28, 0.023, 0.046, 0.06, -0.605, 0]]).map (fun x => [x])
    ∧ Misc.shepp_logan space = Misc.shepp_logan space :=
  ⟨rfl, rfl⟩

/-- Claim C3: at rotation `0` the general rotated-path computation
(`cos 0 = 1`, `sin 0 = 0`) produces the same canvas as the cheaper
axis-aligned path, and the axis-aligned path is the branch
`ellipse_phantom` actually takes at `theta = 0`. -/
theorem ellipse_branches_agree_at_zero_rotation (shape : ℕ × ℕ) (v a b x0 y0 : ℝ)
    (p : Canvas) :
    drawEllipse shape v a b x0 y0 0 p = drawEllipseAxis shape v a b x0 y0 p
    ∧ drawEllipseRot shape v a b x0 y0 0 p = drawEllipseAxis shape v a b x0 y0 p := by
  constructor
  · unfold drawEllipse; rw [if_pos rfl]
  · funext i j
    have hiff : insideRot shape a b x0 y0 0 i j ↔ insideAxis shape a b x0 y0 i j := by
      unfold insideRot insideAxis
      have hq : ∀ X Y : ℝ,
          (Real.cos 0 * X + Real.sin 0 * Y) ^ 2 * (1 / a ^ 2)
            + (-Real.sin 0 * X + Real.cos 0 * Y) ^ 2 * (1 / b ^ 2)
          = 1 / a ^ 2 * X ^ 2 + 1 / b ^ 2 * Y ^ 2 := by
        intro X Y; rw [Real.cos_zero, Real.sin_zero]; ring
      rw [hq]
      simp [Real.cos_zero, Real.sin_zero]
    unfold drawEllipseRot drawEllipseAxis
    by_cases h : insideAxis shape a b x0 y0 i j
    · rw [if_pos h, if_pos (hiff.mpr h)]
    · rw [if_neg h, if_neg (fun hr => h (hiff.mp hr))]

/-- Claim C8, counterexample.  The claim asserts that whenever the
bounding box extends beyond the canvas the subsequent slicing fails.
For the spec `[1, 10, 10, 0, 0, 0]` on a 2x2 canvas the upper bound is
`11 > 2`, yet `ellipse_phantom` succeeds: numpy basic slices clip
silently, nothing reads out of bounds. -/
theorem bbox_overflow_does_not_fail :
    (2 : ℤ) < getshapes_2d_max 2 (((0 : ℝ) + 1) / 2) (Real.sqrt ((10 : ℝ) ^ 2))
    ∧ (Misc.ellipse_phantom (2, 2) [[1, 10, 10, 0, 0, 0]]).isOk = true := by
  constructor
  · unfold getshapes_2d_max
    rw [Real.sqrt_sq (by norm_num : (0 : ℝ) ≤ 10)]
    have : ((2 : ℕ) : ℝ) * (((0 : ℝ) + 1) / 2) + 10 / 2 * ((2 : ℕ) : ℝ) = 11 := by
      push_cast; ring
    rw [this]
    norm_num
  · have hnz : ¬ specDivByZero [(1 : ℝ), 10, 10, 0, 0, 0] := by
      norm_num [specDivByZero]
    simp [Misc.ellipse_phantom, Misc.ellipse_phantom_loop, hnz, Except.isOk, Except.toBool]

/-- Claim C8, amended: `_getshapes_2d` clamps the lower bound to `0`
and leaves the upper bound unclamped (it can exceed the canvas shape,
see the first conjunct of the counterexample), but when the bounding
box overflows, the grid slicing clips at the axis length (`sliceStop`
stays within `[0, S]`) and `ellipse_phantom` succeeds on every list of
6-entry specs with nonzero semi-axes — no indexing failure occurs.
(The nonzero-semi-axes condition excludes the unrelated
`ZeroDivisionError` of the `scales` division, which fires before any
slicing.) -/
theorem getshapes_clamp_and_slice_clip :
    (∀ (S : ℕ) (c r : ℝ), 0 ≤ getshapes_2d_min S c r)
    ∧ (∀ (stop : ℤ) (S : ℕ), 0 ≤ sliceStop stop S ∧ sliceStop stop S ≤ (S : ℤ))
    ∧ (∀ (shape : ℕ × ℕ) (specs : List (List ℝ)), (∀ e ∈ specs, e.length = 6) →
        (∀ e ∈ specs, ¬ specDivByZero e) →
        (Misc.ellipse_phantom shape specs).isOk = true) := by
  refine ⟨?_, ?_, ?_⟩
  · intro S c r; exact le_max_right _ _
  · intro stop S
    unfold sliceStop
    by_cases h : stop < 0
    · rw [if_pos h]
      refine ⟨le_max_right _ _, ?_⟩
      have h1 : stop + (S : ℤ) ≤ (S : ℤ) := by omega
      omega
    · rw [if_neg h]
      push_neg at h
      exact ⟨le_min h (Int.ofNat_nonneg S), min_le_right _ _⟩
  · intro shape specs h hz
    unfold Misc.ellipse_phantom
    rw [ellipse_phantom_loop_ok shape specs zerosCanvas h hz]
    rfl

/-- Claim C8, witness for the hypothesis-bearing conjunct. -/
theorem getshapes_clamp_and_slice_clip_inst :
    (Misc.ellipse_phantom (3, 3) [[(1 : ℝ), 5, 5, 0, 0, 0]]).isOk = true :=
  getshapes_clamp_and_slice_clip.2.2 (3, 3) [[(1 : ℝ), 5, 5, 0, 0, 0]]
    (by intro e he; simp at he; simp [he])
    (by intro e he; simp at he; subst he; norm_num [specDivByZero])

/-- Claim C10, counterexample.  The claim says that if any spec has
length different from 6, the call fails with the assertion error when
that spec is reached.  But the `scales = [1/a_squared, 1/b_squared]`
division (misc.py line 87) runs for every earlier spec first: with the
zero-semi-axis spec `[1, 0, 1, 0, 0, 0]` ahead of the bad-arity spec
`[]`, the call raises `ZeroDivisionError` at the first spec and never
reaches the assertion. -/
theorem zero_axis_preempts_arity_assertion :
    Misc.ellipse_phantom (1, 1) [[1, 0, 1, 0, 0, 0], ([] : List ℝ)]
        = .error .zeroDivisionError
    ∧ ([] : List ℝ).length ≠ 6 := by
  constructor
  · have hz : specDivByZero [(1 : ℝ), 0, 1, 0, 0, 0] := by
      norm_num [specDivByZero]
    simp [Misc.ellipse_phantom, Misc.ellipse_phantom_loop, hz]
  · simp

/-- Claim C10, amended: the arity `assert len(ellip) == 6` is checked
inside the drawing loop.  If a prefix of well-formed specs with nonzero
semi-axes is followed by a bad-arity spec, the call fails with the
assertion error exactly when the bad spec is reached, and the canvas at
that moment already holds all earlier ellipses (the error value is the
fold of `drawSpec` over the prefix) — the operation is not atomic.  (A
zero semi-axis in an earlier spec instead raises `ZeroDivisionError`
before the bad spec is reached, see the counterexample.)  If every spec
has length exactly 6 the assertion never fires: the result is success
or `ZeroDivisionError`, never the assertion error. -/
theorem ellipse_phantom_arity_assertion (shape : ℕ × ℕ)
    (pre : List (List ℝ)) (bad : List ℝ) (rest specs : List (List ℝ))
    (h1 : ∀ e ∈ pre, e.length = 6) (h1z : ∀ e ∈ pre, ¬ specDivByZero e)
    (h2 : bad.length ≠ 6) (h3 : ∀ e ∈ specs, e.length = 6) :
    Misc.ellipse_phantom shape (pre ++ bad :: rest)
        = .error (.assertionError (pre.foldl (drawSpec shape) zerosCanvas))
    ∧ isAssertionError (Misc.ellipse_phantom shape specs) = false := by
  constructor
  · exact ellipse_phantom_loop_prefix shape pre zerosCanvas bad rest h1 h1z h2
  · exact ellipse_phantom_loop_no_assert shape specs zerosCanvas h3

/-- Claim C10, witness. -/
theorem ellipse_phantom_arity_assertion_inst :
    Misc.ellipse_phantom (1, 1) ([[(2 : ℝ), 3, 4, 5, 6, 0]] ++ [1, 2] :: [])
        = .error (.assertionError
            (([[(2 : ℝ), 3, 4, 5, 6, 0]]).foldl (drawSpec (1, 1)) zerosCanvas))
    ∧ isAssertionError (Misc.ellipse_phantom (1, 1) [[(9 : ℝ), 8, 7, 6, 5, 4]]) = false :=
  ellipse_phantom_arity_assertion (1, 1) [[(2 : ℝ), 3, 4, 5, 6, 0]] [1, 2] []
    [[(9 : ℝ), 8, 7, 6, 5, 4]]
    (by intro e he; simp at he; simp [he])
    (by intro e he; simp at he; subst he; norm_num [specDivByZero])
    (by simp)
    (by intro e he; simp at he; simp [he])

/-! ## Helper lemmas about `fill_line` -/

lemma lineWrites_succ (x y sx sy : ℚ) (n : ℕ) :
    lineWrites x y sx sy (n + 1)
      = (pyInt y, pyInt x) :: lineWrites (x + sx) (y + sy) sx sy n := by
  unfold lineWrites
  rw [List.range_succ_eq_map, List.map_cons, List.map_map]
  refine congrArg₂ List.cons (by norm_num) ?_
  refine List.map_congr_left fun i _ => ?_
  simp only [Function.comp_apply]
  refine congrArg₂ Prod.mk (congrArg pyInt ?_) (congrArg pyInt ?_) <;> (push_cast; ring)

lemma fillLineLoop_eq_writePixels (col sx sy : ℚ) :
    ∀ (n : ℕ) (c : pyCanvas) (x y : ℚ),
      fillLineLoop col sx sy c x y n = writePixels c (lineWrites x y sx sy n) col := by
  intro n
  induction n with
  | zero => intro c x y; rfl
  | succ n ih =>
      intro c x y
      rw [lineWrites_succ]
      unfold writePixels
      rw [List.foldlM_cons]
      show _ = (setPix c (pyInt y) (pyInt x) col) >>= _
      rw [fillLineLoop]
      cases h : setPix c (pyInt y) (pyInt x) col with
      | error e => rfl
      | ok c' => simpa [writePixels] using ih c' (x + sx) (y + sy)

/-! ## Claims about `fill_line` -/

/-- Claim C4, counterexample to the general clause ("writes at the
rounded-down integer pixel coordinate at each of the d+1 visited
points").  With endpoints `(-1, 0)` and `(0, 2)` the step-1 visited
point has `x = -1 + 1*(dx/d) = -1/2`, whose rounded-down value is `-1`
(which Python would wrap to column 2) — but the code writes Python
`int(-1/2) = 0`: row 1 of the result is `[7, 0, 0]`, not `[0, 0, 7]`. -/
theorem fill_line_truncates_not_floors :
    fill_line (zeros 3 3) (-1) 0 0 2 7
        = .ok [[0, 0, 7], [7, 0, 0], [7, 0, 0]]
    ∧ ⌊((-1 : ℚ) + (1 : ℚ) / 2)⌋ = -1
    ∧ pyInt ((-1 : ℚ) + (1 : ℚ) / 2) = 0 := by
  refine ⟨?_, by norm_num, by norm_num [pyInt]⟩
  have h1 : ⌈(-1 : ℚ)⌉ = -1 := by rw [Int.ceil_neg, Int.floor_one]
  have h2 : ⌈(-(1 / 2) : ℚ)⌉ = 0 := by
    rw [Int.ceil_neg]
    norm_num [Int.floor_eq_zero_iff, Set.mem_Ico]
  norm_num [fill_line, fillLineLoop, setPix, pyIdx, pyInt, zeros, List.replicate, List.set,
    List.getD, h1, h2]
  rfl

/-- Claim C4, amended.  First conjunct (as claimed): drawing from
`(0,0)` to `(5,0)` with color `C` on a zero 10x10 canvas sets exactly
the pixels `(0,0) … (5,0)` and leaves every other pixel `0`.  Second
conjunct (general clause, amended): for a non-degenerate segment the
code takes `d = max(|dx|, |dy|)` steps of increment `(dx/d, dy/d)` and
writes the color at each of the `d+1` visited points at the coordinate
*truncated toward zero* by `int()` (`pyInt`), which agrees with
rounding down only for non-negative coordinates. -/
theorem fill_line_dda_characterization (C : ℚ) (c : pyCanvas) (x1 y1 x2 y2 : ℤ)
    (col : ℚ) (h : max (x2 - x1).natAbs (y2 - y1).natAbs ≠ 0) :
    fill_line (zeros 10 10) 0 0 5 0 C
        = .ok ((List.replicate 6 C ++ List.replicate 4 (0 : ℚ))
            :: List.replicate 9 (List.replicate 10 (0 : ℚ)))
    ∧ fill_line c x1 y1 x2 y2 col
        = writePixels c
            (lineWrites (x1 : ℚ) (y1 : ℚ)
              (((x2 - x1 : ℤ) : ℚ) / ((max (x2 - x1).natAbs (y2 - y1).natAbs : ℕ) : ℚ))
              (((y2 - y1 : ℤ) : ℚ) / ((max (x2 - x1).natAbs (y2 - y1).natAbs : ℕ) : ℚ))
              (max (x2 - x1).natAbs (y2 - y1).natAbs + 1)) col := by
  constructor
  · norm_num [fill_line, fillLineLoop, setPix, pyIdx, pyInt, zeros, List.replicate,
      List.set, List.getD]
  · unfold fill_line
    rw [if_neg h]
    exact fillLineLoop_eq_writePixels col _ _ _ c (x1 : ℚ) (y1 : ℚ)

/-- Claim C4, witness. -/
theorem fill_line_dda_characterization_inst :
    fill_line (zeros 10 10) 0 0 5 0 3
        = .ok ((List.replicate 6 (3 : ℚ) ++ List.replicate 4 (0 : ℚ))
            :: List.replicate 9 (List.replicate 10 (0 : ℚ)))
    ∧ fill_line (zeros 2 2) 0 0 1 0 5
        = writePixels (zeros 2 2)
            (lineWrites ((0 : ℤ) : ℚ) ((0 : ℤ) : ℚ)
              ((((1 : ℤ) - 0 : ℤ) : ℚ) / ((max ((1 : ℤ) - 0).natAbs ((0 : ℤ) - 0).natAbs : ℕ) : ℚ))
              ((((0 : ℤ) - 0 : ℤ) : ℚ) / ((max ((1 : ℤ) - 0).natAbs ((0 : ℤ) - 0).natAbs : ℕ) : ℚ))
              (max ((1 : ℤ) - 0).natAbs ((0 : ℤ) - 0).natAbs + 1)) 5 :=
  ⟨(fill_line_dda_characterization 3 (zeros 2 2) 0 0 1 0 5 (by decide)).1,
   (fill_line_dda_characterization 3 (zeros 2 2) 0 0 1 0 5 (by decide)).2⟩

/-- Claim C9: a zero-length segment (coincident endpoints) makes
`d = max(|dx|, |dy|) = 0` and the per-axis increment `dx / d` raises
`ZeroDivisionError`, for every canvas and color. -/
theorem fill_line_zero_length_division_by_zero (c : pyCanvas) (x y : ℤ) (col : ℚ) :
    fill_line c x y x y col = .error .zeroDivisionError := by
  unfold fill_line
  simp

/-! ## Helper lemmas about `mapCells`, `setPix` and canvas shapes -/

lemma mapRow_length (g : ℕ → ℚ → ℚ) : ∀ (row : List ℚ) (j0 : ℕ),
    (mapRow g j0 row).length = row.length := by
  intro row
  induction row with
  | nil => intro j0; rfl
  | cons v vs ih => intro j0; simp [mapRow, ih]

lemma mapRow_getD (g : ℕ → ℚ → ℚ) : ∀ (row : List ℚ) (j0 j : ℕ),
    (mapRow g j0 row).getD j 0
      = if j < row.length then g (j0 + j) (row.getD j 0) else 0 := by
  intro row
  induction row with
  | nil => intro j0 j; simp [mapRow]
  | cons v vs ih =>
      intro j0 j
      cases j with
      | zero => simp [mapRow]
      | succ j =>
          simp only [mapRow, List.getD_cons_succ, List.length_cons]
          rw [ih (j0 + 1) j]
          by_cases h : j < vs.length
          · rw [if_pos h, if_pos (by omega)]
            congr 1
            omega
          · rw [if_neg h, if_neg (by omega)]

lemma mapCellsAux_getPix (f : ℕ → ℕ → ℚ → ℚ) : ∀ (c : pyCanvas) (i0 i j : ℕ),
    ((mapCellsAux f i0 c).getD i []).getD j 0
      = if i < c.length ∧ j < (c.getD i []).length
        then f (i0 + i) j (getPix c i j) else getPix c i j := by
  intro c
  induction c with
  | nil => intro i0 i j; simp [mapCellsAux, getPix]
  | cons row rest ih =>
      intro i0 i j
      cases i with
      | zero =>
          simp only [mapCellsAux, List.getD_cons_zero, mapRow_getD, List.length_cons,
            getPix, Nat.add_zero, Nat.zero_add]
          by_cases h : j < row.length
          · rw [if_pos h, if_pos ⟨by omega, h⟩]
          · rw [if_neg h, if_neg (by intro hc; exact h hc.2)]
            exact (List.getD_eq_default row _ (by omega : row.length ≤ j)).symm
      | succ i =>
          simp only [mapCellsAux, List.getD_cons_succ, List.length_cons, getPix] at *
          rw [ih (i0 + 1) i j]
          by_cases h : i < rest.length ∧ j < (rest.getD i []).length
          · rw [if_pos h, if_pos ⟨by omega, h.2⟩]
            congr 1
            omega
          · rw [if_neg h, if_neg (by intro hc; exact h ⟨by omega, hc.2⟩)]

lemma getPix_mapCells (f : ℕ → ℕ → ℚ → ℚ) (c : pyCanvas) (i j : ℕ) :
    getPix (mapCells f c) i j
      = if i < c.length ∧ j < (c.getD i []).length
        then f i j (getPix c i j) else getPix c i j := by
  unfold mapCells getPix
  rw [mapCellsAux_getPix f c 0 i j]
  simp [getPix]

lemma shapeList_mapCellsAux (f : ℕ → ℕ → ℚ → ℚ) : ∀ (c : pyCanvas) (i0 : ℕ),
    shapeList (mapCellsAux f i0 c) = shapeList c := by
  intro c
  induction c with
  | nil => intro i0; rfl
  | cons row rest ih => intro i0; simp [mapCellsAux, shapeList, mapRow_length] at *; exact ih _

lemma shapeList_mapCells (f : ℕ → ℕ → ℚ → ℚ) (c : pyCanvas) :
    shapeList (mapCells f c) = shapeList c :=
  shapeList_mapCellsAux f c 0

lemma shapeList_sliceAssign (c : pyCanvas) (r1 r2 c1 c2 : ℤ) (v : ℚ) :
    shapeList (sliceAssign c r1 r2 c1 c2 v) = shapeList c :=
  shapeList_mapCells _ c

lemma shapeList_set (c : pyCanvas) (r : ℕ) (row' : List ℚ)
    (h : row'.length = (c.getD r []).length) :
    shapeList (c.set r row') = shapeList c := by
  induction c generalizing r with
  | nil => simp
  | cons row rest ih =>
      cases r with
      | zero => simp_all [shapeList]
      | succ r => simp_all [shapeList]

lemma setPix_shape (c : pyCanvas) (row col : ℤ) (v : ℚ) (c' : pyCanvas)
    (h : setPix c row col v = .ok c') : shapeList c' = shapeList c := by
  unfold setPix at h
  cases h1 : pyIdx row c.length with
  | none => simp only [h1] at h; exact Except.noConfusion h
  | some r =>
      simp only [h1] at h
      cases h2 : pyIdx col (c.getD r []).length with
      | none => simp only [h2] at h; exact Except.noConfusion h
      | some cc =>
          simp only [h2] at h
          cases Except.ok.inj h
          exact shapeList_set c r _ (by simp)

lemma fillLineLoop_shape (col sx sy : ℚ) : ∀ (n : ℕ) (c : pyCanvas) (x y : ℚ)
    (c' : pyCanvas), fillLineLoop col sx sy c x y n = .ok c' → shapeList c' = shapeList c := by
  intro n
  induction n with
  | zero => intro c x y c' h; cases Except.ok.inj h; rfl
  | succ n ih =>
      intro c x y c' h
      rw [fillLineLoop] at h
      cases h1 : setPix c (pyInt y) (pyInt x) col with
      | error e => rw [h1] at h; exact absurd h (by simp)
      | ok cmid =>
          rw [h1] at h
          exact (ih cmid (x + sx) (y + sy) c' h).trans (setPix_shape c _ _ _ cmid h1)

lemma fill_line_shape (c : pyCanvas) (x1 y1 x2 y2 : ℤ) (col : ℚ) (c' : pyCanvas)
    (h : fill_line c x1 y1 x2 y2 col = .ok c') : shapeList c' = shapeList c := by
  unfold fill_line at h
  by_cases hd : max (x2 - x1).natAbs (y2 - y1).natAbs = 0
  · rw [if_pos hd] at h; exact absurd h (by simp)
  · rw [if_neg hd] at h
    exact fillLineLoop_shape _ _ _ _ c _ _ c' h

lemma except_bind_ok {α β : Type} (x : Except PyErr α) (f : α → Except PyErr β) (b : β)
    (h : x >>= f = .ok b) : ∃ a, x = .ok a ∧ f a = .ok b := by
  cases x with
  | error e => exact absurd h (by simp [Bind.bind, Except.bind])
  | ok a => exact ⟨a, rfl, by simpa [Bind.bind, Except.bind] using h⟩

lemma foldlM_shape {α : Type} (step : pyCanvas → α → Except PyErr pyCanvas)
    (hstep : ∀ c a c', step c a = .ok c' → shapeList c' = shapeList c) :
    ∀ (l : List α) (c c' : pyCanvas), l.foldlM step c = .ok c' → shapeList c' = shapeList c := by
  intro l
  induction l with
  | nil => intro c c' h; cases Except.ok.inj h; rfl
  | cons a rest ih =>
      intro c c' h
      rw [List.foldlM_cons] at h
      obtain ⟨cmid, h1, h2⟩ := except_bind_ok _ _ _ h
      exact (ih cmid c' h2).trans (hstep c a cmid h1)

lemma shapeList_zeros (m n : ℕ) : shapeList (zeros m n) = List.replicate m n := by
  simp [shapeList, zeros]

lemma hasShape_of_shapeList (c : pyCanvas) (m n : ℕ)
    (h : shapeList c = List.replicate m n) : hasShape c m n = true := by
  unfold hasShape
  have hlen : c.length = m := by
    have := congrArg List.length h
    simpa [shapeList] using this
  refine (Bool.and_eq_true _ _).mpr ⟨by simp [hlen], ?_⟩
  rw [List.all_eq_true]
  intro row hrow
  have : row.length ∈ shapeList c := by
    simp only [shapeList, List.mem_map]
    exact ⟨row, hrow, rfl⟩
  rw [h] at this
  simpa using List.eq_of_mem_replicate this

/-! ## Claims about the circle branch of `random_shapes_array` -/

/-- Claim C7, counterexample.  The claim says the circle branch paints
exactly the pixels at Euclidean distance `<= s/2` from the center.  The
code tests `distances <= size//2` (floor division): for `size = 5`
centred at `(0,0)` the pixel at `(row 2, col 1)` has distance
`sqrt 5 ≈ 2.236 ≤ 5/2`, so the claim predicts it is painted, but
`sqrt 5 > 5//2 = 2` and the code leaves it at `0` (while it does paint
the center pixel). -/
theorem circle_branch_odd_size_counterexample :
    getPix (drawCircle 0 0 5 7 (zeros 3 3)) 2 1 = 0
    ∧ getPix (drawCircle 0 0 5 7 (zeros 3 3)) 0 0 = 7
    ∧ Real.sqrt (((1 : ℝ) - 0) ^ 2 + ((2 : ℝ) - 0) ^ 2) ≤ (5 : ℝ) / 2 := by
  have hlen : (zeros 3 3).length = 3 := by simp [zeros]
  have hrow2 : ((zeros 3 3).getD 2 []).length = 3 := by simp [zeros]
  have hrow0 : ((zeros 3 3).getD 0 []).length = 3 := by simp [zeros]
  have hfd : (((5 : ℤ).fdiv 2 : ℤ) : ℝ) = 2 := by norm_num [Int.fdiv]
  refine ⟨?_, ?_, ?_⟩
  · rw [drawCircle, getPix_mapCells]
    rw [if_pos ⟨by rw [hlen]; norm_num, by rw [hrow2]; norm_num⟩]
    rw [if_neg ?hmask]
    · simp [getPix, zeros]
    case hmask =>
      rw [hfd, Real.sqrt_le_iff]
      push_cast
      norm_num
  · rw [drawCircle, getPix_mapCells]
    rw [if_pos ⟨by rw [hlen]; norm_num, by rw [hrow0]; norm_num⟩]
    rw [if_pos ?hmask2]
    case hmask2 =>
      rw [hfd, Real.sqrt_le_iff]
      push_cast
      norm_num
  · rw [Real.sqrt_le_iff]
    norm_num

open Classical in
/-- Claim C7, amended: in the circle branch the set of pixels set to
the color is exactly those whose Euclidean distance from the center,
over the full per-call coordinate mesh of the canvas, is
`<= size // 2` (floor division, `s.fdiv 2`), not `<= s/2`; the two
agree when `s` is even. -/
theorem drawCircle_membership_floor_half (cx cy s : ℤ) (col : ℚ) (c : pyCanvas)
    (i j : ℕ) :
    getPix (drawCircle cx cy s col c) i j
      = if i < c.length ∧ j < (c.getD i []).length
            ∧ Real.sqrt (((j : ℝ) - (cx : ℝ)) ^ 2 + ((i : ℝ) - (cy : ℝ)) ^ 2)
                ≤ ((s.fdiv 2 : ℤ) : ℝ)
        then col else getPix c i j := by
  rw [drawCircle, getPix_mapCells]
  by_cases h1 : i < c.length ∧ j < (c.getD i []).length
  · rw [if_pos h1]
    by_cases h2 : Real.sqrt (((j : ℝ) - (cx : ℝ)) ^ 2 + ((i : ℝ) - (cy : ℝ)) ^ 2)
        ≤ ((s.fdiv 2 : ℤ) : ℝ)
    · rw [if_pos h2, if_pos ⟨h1.1, h1.2, h2⟩]
    · rw [if_neg h2, if_neg (fun hc => h2 hc.2.2)]
  · rw [if_neg h1, if_neg (fun hc => h1 ⟨hc.1, hc.2.1⟩)]

/-! ## Shape lemmas for the generator steps -/

lemma shapeList_drawRect (shape : ℕ × ℕ) (cx cy size : ℤ) (color : ℚ) (c : pyCanvas) :
    shapeList (drawRect shape cx cy size color c) = shapeList c :=
  shapeList_sliceAssign _ _ _ _ _ _

lemma shapeList_drawCircle (cx cy size : ℤ) (color : ℚ) (c : pyCanvas) :
    shapeList (drawCircle cx cy size color c) = shapeList c :=
  shapeList_mapCells _ c

lemma camoStep_not_ok (shape : ℕ × ℕ) (minS maxS : ℤ) (colors : List ℚ)
    (c : pyCanvas) (r : ℕ × ℕ × ℕ × ℕ) (c' : pyCanvas) :
    camoStep shape minS maxS colors c r ≠ .ok c' := by
  unfold camoStep
  intro h
  obtain ⟨cx, h1, h⟩ := except_bind_ok _ _ _ h
  obtain ⟨cy, h2, h⟩ := except_bind_ok _ _ _ h
  obtain ⟨size, h3, h⟩ := except_bind_ok _ _ _ h
  obtain ⟨color, h4, h⟩ := except_bind_ok _ _ _ h
  simp [randomDotChoice] at h4

lemma shapesStep_shape (shape : ℕ × ℕ) (minS maxS : ℤ) (c : pyCanvas)
    (r : ℕ × ℕ × ℕ × ℕ × ℕ) (c' : pyCanvas)
    (h : shapesStep shape minS maxS c r = .ok c') : shapeList c' = shapeList c := by
  unfold shapesStep at h
  obtain ⟨cx, h1, h⟩ := except_bind_ok _ _ _ h
  obtain ⟨cy, h2, h⟩ := except_bind_ok _ _ _ h
  obtain ⟨size, h3, h⟩ := except_bind_ok _ _ _ h
  obtain ⟨color, h4, h⟩ := except_bind_ok _ _ _ h
  by_cases hr : npChoiceIsRect r.2.2.2.2
  · rw [if_pos hr] at h
    cases Except.ok.inj h
    exact shapeList_drawRect _ _ _ _ _ _
  · rw [if_neg hr] at h
    cases Except.ok.inj h
    exact shapeList_drawCircle _ _ _ _ _

lemma polyStep_shape (shape : ℕ × ℕ) (minN maxN minS maxS : ℤ) (c : pyCanvas)
    (r : ℕ × ℕ × ℕ × ℕ × ℕ) (c' : pyCanvas)
    (h : polyStep shape minN maxN minS maxS c r = .ok c') : shapeList c' = shapeList c := by
  unfold polyStep at h
  obtain ⟨cx, h1, h⟩ := except_bind_ok _ _ _ h
  obtain ⟨cy, h2, h⟩ := except_bind_ok _ _ _ h
  obtain ⟨size, h3, h⟩ := except_bind_ok _ _ _ h
  obtain ⟨n, h4, h⟩ := except_bind_ok _ _ _ h
  obtain ⟨color, h5, h⟩ := except_bind_ok _ _ _ h
  by_cases hn : n < 0
  · rw [if_pos hn] at h
    exact absurd h (by simp)
  · rw [if_neg hn] at h
    exact foldlM_shape _ (fun cc j cc' hh => fill_line_shape cc _ _ _ _ _ cc' hh) _ c c' h

lemma camoStep_nameError (shape : ℕ × ℕ) (minS maxS : ℤ) (colors : List ℚ)
    (c : pyCanvas) (r : ℕ × ℕ × ℕ × ℕ) (h1 : 0 < shape.1) (h2 : 0 < shape.2)
    (h3 : minS < maxS) :
    camoStep shape minS maxS colors c r = .error .nameError := by
  have e2 : (0 : ℤ) < (shape.2 : ℤ) := by exact_mod_cast h2
  have e1 : (0 : ℤ) < (shape.1 : ℤ) := by exact_mod_cast h1
  simp [camoStep, pyRandint, randomDotChoice, e1, e2, h3, Bind.bind, Except.bind]

/-! ## Claims about the random-canvas generators -/

/-- Claim C5.  The first three conjuncts: with `num_* = 0` each
generator returns the untouched all-zero canvas of the requested shape.
Conjuncts four to six: whenever a generator returns a canvas, that
canvas has exactly the requested shape (every stamping operation
preserves the row structure).  Final conjunct, the code bug that
falsifies the claim as stated: `random_camouflage_array` with
`num_patches >= 1` never returns — the module never imports `random`,
so the color draw `random.choice(colors)` raises `NameError` on the
first patch, for every random stream. -/
theorem random_canvas_generators_shape_behavior :
    (∀ (shape : ℕ × ℕ) (minS maxS : ℤ) (colors : List ℚ) (draws : ℕ → ℕ × ℕ × ℕ × ℕ),
        random_camouflage_array shape 0 minS maxS colors draws = .ok (zeros shape.1 shape.2))
    ∧ (∀ (shape : ℕ × ℕ) (minN maxN minS maxS : ℤ) (draws : ℕ → ℕ × ℕ × ℕ × ℕ × ℕ),
        random_polygons_array shape 0 minN maxN minS maxS draws = .ok (zeros shape.1 shape.2))
    ∧ (∀ (shape : ℕ × ℕ) (minS maxS : ℤ) (draws : ℕ → ℕ × ℕ × ℕ × ℕ × ℕ),
        random_shapes_array shape 0 minS maxS draws = .ok (zeros shape.1 shape.2))
    ∧ (∀ (shape : ℕ × ℕ) (num : ℕ) (minS maxS : ℤ) (colors : List ℚ)
          (draws : ℕ → ℕ × ℕ × ℕ × ℕ) (c : pyCanvas),
        random_camouflage_array shape num minS maxS colors draws = .ok c →
        hasShape c shape.1 shape.2 = true)
    ∧ (∀ (shape : ℕ × ℕ) (num : ℕ) (minN maxN minS maxS : ℤ)
          (draws : ℕ → ℕ × ℕ × ℕ × ℕ × ℕ) (c : pyCanvas),
        random_polygons_array shape num minN maxN minS maxS draws = .ok c →
        hasShape c shape.1 shape.2 = true)
    ∧ (∀ (shape : ℕ × ℕ) (num : ℕ) (minS maxS : ℤ)
          (draws : ℕ → ℕ × ℕ × ℕ × ℕ × ℕ) (c : pyCanvas),
        random_shapes_array shape num minS maxS draws = .ok c →
        hasShape c shape.1 shape.2 = true)
    ∧ (∀ draws : ℕ → ℕ × ℕ × ℕ × ℕ,
        random_camouflage_array (4, 4) 1 2 10 [0, 128, 255] draws
          = .error .nameError) := by
  refine ⟨?_, ?_, ?_, ?_, ?_, ?_, ?_⟩
  · intro shape minS maxS colors draws; rfl
  · intro shape minN maxN minS maxS draws; rfl
  · intro shape minS maxS draws; rfl
  · intro shape num minS maxS colors draws c h
    refine hasShape_of_shapeList c _ _ ?_
    rw [← shapeList_zeros shape.1 shape.2]
    exact foldlM_shape _
      (fun cc a cc' hh => absurd hh (camoStep_not_ok shape minS maxS colors cc (draws a) cc'))
      (List.range num) _ c h
  · intro shape num minN maxN minS maxS draws c h
    refine hasShape_of_shapeList c _ _ ?_
    rw [← shapeList_zeros shape.1 shape.2]
    exact foldlM_shape _
      (fun cc a cc' hh => polyStep_shape shape minN maxN minS maxS cc (draws a) cc' hh)
      (List.range num) _ c h
  · intro shape num minS maxS draws c h
    refine hasShape_of_shapeList c _ _ ?_
    rw [← shapeList_zeros shape.1 shape.2]
    exact foldlM_shape _
      (fun cc a cc' hh => shapesStep_shape shape minS maxS cc (draws a) cc' hh)
      (List.range num) _ c h
  · intro draws
    unfold random_camouflage_array
    rw [List.range_succ_eq_map, List.foldlM_cons,
      camoStep_nameError (4, 4) 2 10 [0, 128, 255] _ (draws 0)
        (by norm_num) (by norm_num) (by norm_num)]
    rfl

/-- Claim C5, witness: the shape-preservation conjuncts applied to the
`num = 0` runs produced by the first three conjuncts. -/
theorem random_canvas_generators_shape_behavior_inst :
    hasShape (zeros 2 3) 2 3 = true
    ∧ hasShape (zeros 1 1) 1 1 = true
    ∧ hasShape (zeros 4 2) 4 2 = true :=
  ⟨random_canvas_generators_shape_behavior.2.2.2.1 (2, 3) 0 1 2 []
      (fun _ => (0, 0, 0, 0)) (zeros 2 3)
      (random_canvas_generators_shape_behavior.1 (2, 3) 1 2 [] (fun _ => (0, 0, 0, 0))),
   random_canvas_generators_shape_behavior.2.2.2.2.1 (1, 1) 0 3 8 1 2
      (fun _ => (0, 0, 0, 0, 0)) (zeros 1 1)
      (random_canvas_generators_shape_behavior.2.1 (1, 1) 3 8 1 2 (fun _ => (0, 0, 0, 0, 0))),
   random_canvas_generators_shape_behavior.2.2.2.2.2.1 (4, 2) 0 1 2
      (fun _ => (0, 0, 0, 0, 0)) (zeros 4 2)
      (random_canvas_generators_shape_behavior.2.2.1 (4, 2) 1 2 (fun _ => (0, 0, 0, 0, 0)))⟩

/-- Claim C6: `random_camouflage_array` never stamps a patch.  With a
canvas of positive dimensions and a non-empty size range, every call
with `num_patches >= 1` raises `NameError` at the first patch's color
draw, because the module `random` is never imported (misc.py imports
only `numpy` and `scipy.ndimage`); the claimed palette stamping is
unreachable. -/
theorem random_camouflage_array_raises_nameerror (shape : ℕ × ℕ) (num : ℕ)
    (minS maxS : ℤ) (colors : List ℚ) (draws : ℕ → ℕ × ℕ × ℕ × ℕ)
    (h1 : 0 < shape.1) (h2 : 0 < shape.2) (h3 : minS < maxS) (h4 : 1 ≤ num) :
    random_camouflage_array shape num minS maxS colors draws = .error .nameError := by
  obtain ⟨k, rfl⟩ : ∃ k, num = k + 1 := ⟨num - 1, by omega⟩
  unfold random_camouflage_array
  rw [List.range_succ_eq_map, List.foldlM_cons,
    camoStep_nameError shape minS maxS colors _ (draws 0) h1 h2 h3]
  rfl

/-- Claim C6, witness. -/
theorem random_camouflage_array_raises_nameerror_inst :
    random_camouflage_array (5, 5) 2 0 3 [0, 128, 255] (fun _ => (0, 0, 0, 0))
      = .error .nameError :=
  random_camouflage_array_raises_nameerror (5, 5) 2 0 3 [0, 128, 255]
    (fun _ => (0, 0, 0, 0)) (by norm_num) (by norm_num) (by norm_num) (by norm_num)

end Misc
